import Mathlib

/-!
Verification development for the anime-picker application (`src/App.tsx`).

The TypeScript source is shallowly embedded at two levels of detail:

* a *sequential* semantics: each handler of the component
  (`loadAnimeData`, `prefetchNext`, `handleChoice`, `handleFileUpload`,
  `shuffleArray`) is translated into a pure Lean function that threads the
  component state explicitly and runs to completion without interleaving;
  external `fetch` responses are supplied by oracles (`Option JikanAnime`,
  `none` standing for any failed request: non-2xx status or transport error);

* an *event-loop* semantics (`stepB` / `runB`): the JavaScript
  single-threaded execution model, in which each synchronous segment
  between `await` points is one atomic step and the environment chooses
  when timers fire and when fetches complete and with what result.  The
  state carries an explicit clock (milliseconds), the set of pending
  asynchronous tasks, and an instrumentation log of outbound calls with
  their start timestamps, so that temporal properties (call counts per
  identifier, gaps between call starts) can be stated and settled.

JavaScript objects used as string-keyed maps (`cacheRef.current`, the
`choices` record) are embedded as association lists where an assignment
prepends a binding (`recordSet`) and a read takes the first binding
(`recLookup`), which gives exactly the observable lookup semantics of
object assignment.  `parseInt(s, 10)` is embedded by `parseInt10`.
`Math.random()`-driven index choices in the Fisher–Yates shuffle are
abstracted by a choice function `c : ℕ → ℕ`; the draw
`Math.floor(Math.random() * (i + 1))`, which is an arbitrary value in
`[0, i]`, is represented as `c i % (i + 1)`.
-/

/-- A parsed list entry (`interface AnimeXml` in the source). -/
structure AnimeXml where
  id : String
  title : String
  status : String
deriving DecidableEq

/-- Nested image record of the Jikan payload. -/
structure JpgImages where
  image_url : String
  large_image_url : Option String
deriving DecidableEq

/-- Image container of the Jikan payload. -/
structure JikanImages where
  jpg : JpgImages
deriving DecidableEq

/-- Resolved metadata (`interface JikanAnime` in the source).  The
floating-point `score` is embedded as a rational; no claim depends on
float rounding. -/
structure JikanAnime where
  mal_id : Int
  title : String
  title_english : Option String
  images : JikanImages
  synopsis : Option String
  episodes : Option Int
  type : Option String
  status : Option String
  score : Option ℚ
deriving DecidableEq

/-- A user decision (the `"liked" | "disliked"` union in the source). -/
inductive Decision where
  | liked
  | disliked
deriving DecidableEq

/-- Reading a JavaScript object property: first binding wins. -/
def recLookup {β : Type} (k : String) : List (String × β) → Option β
  | [] => none
  | (k', v) :: rest => if k' = k then some v else recLookup k rest

/-- Writing a JavaScript object property (`obj[k] = v`): prepend a
binding, shadowing any older one. -/
def recordSet {β : Type} (m : List (String × β)) (k : String) (v : β) :
    List (String × β) :=
  (k, v) :: m

/-- The in-memory cache `cacheRef.current : Record<string, JikanAnime>`. -/
abbrev CacheMap := List (String × JikanAnime)

/-- Longest leading run of decimal digits. -/
def leadingDigits (l : List Char) : List Char :=
  l.takeWhile Char.isDigit

/-- Numeric value of a digit string. -/
def digitsToNat (l : List Char) : ℕ :=
  l.foldl (fun acc c => 10 * acc + (c.toNat - '0'.toNat)) 0

/-- Parse a longest digit run; `none` when the input does not start with
a digit (this is the `isNaN` outcome). -/
def parseDigits (l : List Char) : Option Int :=
  match leadingDigits l with
  | [] => none
  | ds => some (digitsToNat ds : Int)

/-- Embedding of `parseInt(s, 10)`: skip leading whitespace, read an
optional sign, then the longest digit run; `none` stands for `NaN`
(no digit found). -/
def parseInt10 (s : String) : Option Int :=
  match s.toList.dropWhile Char.isWhitespace with
  | '-' :: rest => (parseDigits rest).map (fun n => -n)
  | '+' :: rest => parseDigits rest
  | rest => parseDigits rest

/-- Result of one run of `loadAnimeData` (the foreground resolve path):
the cache afterwards, the `jikanData` state afterwards, and the list of
numeric identifiers for which an outbound call was issued. -/
structure LoadResult where
  cache : CacheMap
  jikan : Option JikanAnime
  calls : List Int
deriving DecidableEq

/-- Sequential embedding of `loadAnimeData(id)` from the source: cached
hit short-circuits; a non-numeric identifier returns without touching
anything; otherwise one fetch is issued whose outcome `fetched` is
supplied by the environment (`some` = 2xx with payload, `none` = any
failure, which the `catch` turns into `setJikanData(null)`). -/
def loadAnimeData (cache : CacheMap) (jikan : Option JikanAnime)
    (id : String) (fetched : Option JikanAnime) : LoadResult :=
  match recLookup id cache with
  | some v => ⟨cache, some v, []⟩
  | none =>
    match parseInt10 id with
    | none => ⟨cache, jikan, []⟩
    | some idNum =>
      match fetched with
      | some data => ⟨recordSet cache id data, some data, [idNum]⟩
      | none => ⟨cache, none, [idNum]⟩

/-- Result of one run of `prefetchNext`: the cache afterwards, the
outbound calls issued, and how many 900 ms inter-call delays were
spent. -/
structure PrefetchResult where
  cache : CacheMap
  calls : List Int
  delays : ℕ
deriving DecidableEq

/-- One iteration of the `prefetchNext` loop body at window position `i`:
a missing entry, an already-cached identifier, or a non-numeric
identifier is skipped (`continue`) without a delay or a call; otherwise
the loop sleeps 900 ms, issues the call, and caches the payload exactly
when the response is a success (`!res.ok` and thrown errors both leave
the cache untouched and move on). -/
def prefetchStep (list : List AnimeXml) (oracle : ℕ → Option JikanAnime)
    (acc : PrefetchResult) (i : ℕ) : PrefetchResult :=
  match list.get? i with
  | none => acc
  | some next =>
    if (recLookup next.id acc.cache).isSome then acc
    else
      match parseInt10 next.id with
      | none => acc
      | some idNum =>
        match oracle i with
        | some data =>
          ⟨recordSet acc.cache next.id data, acc.calls ++ [idNum], acc.delays + 1⟩
        | none => ⟨acc.cache, acc.calls ++ [idNum], acc.delays + 1⟩

/-- Sequential embedding of `prefetchNext()`: the loop
`for (i = currentIndex + 1; i < currentIndex + 4; i++)` over the three
window positions, threading the cache. -/
def prefetchNext (list : List AnimeXml) (currentIndex : ℕ) (cache : CacheMap)
    (oracle : ℕ → Option JikanAnime) : PrefetchResult :=
  List.foldl (prefetchStep list oracle) ⟨cache, [], 0⟩
    [currentIndex + 1, currentIndex + 2, currentIndex + 3]

/-- The component state of `App` (sequential view).  `cooldownResetAt`
records the pending `setTimeout(() => setIsCooldown(false), 1000)`
timer, if any. -/
structure AppState where
  animeList : List AnimeXml
  currentIndex : ℕ
  jikanData : Option JikanAnime
  choices : List (String × Decision)
  likedShows : List JikanAnime
  isCooldown : Bool
  cooldownResetAt : Option ℕ
  cache : CacheMap
deriving DecidableEq

/-- Embedding of `handleChoice(choice)` at clock time `now`: during
cooldown the click is ignored outright; otherwise the cooldown is armed
first (with its 1000 ms reset timer), and only then are the current
entry and the displayed metadata checked — when either is missing the
handler returns with just the cooldown armed; when both are present the
decision is recorded, a liked decision appends the displayed metadata,
and the cursor advances by one. -/
def handleChoice (s : AppState) (now : ℕ) (choice : Decision) : AppState :=
  if s.isCooldown then s
  else
    let s₁ := { s with isCooldown := true, cooldownResetAt := some (now + 1000) }
    match s.animeList.get? s.currentIndex, s.jikanData with
    | some anime, some jd =>
      let s₂ := { s₁ with choices := recordSet s₁.choices anime.id choice }
      let s₃ :=
        if choice = Decision.liked then
          { s₂ with likedShows := s₂.likedShows ++ [jd] }
        else s₂
      { s₃ with currentIndex := s₃.currentIndex + 1 }
    | _, _ => s₁

/-- The cooldown timer firing: `setIsCooldown(false)`. -/
def cooldownFire (s : AppState) : AppState :=
  { s with isCooldown := false, cooldownResetAt := none }

/-- Sequential embedding of the data-fetching effect: when the cursor is
past the end of the list the displayed metadata is cleared and nothing
else happens; otherwise `loadAnimeData` runs to completion and then the
prefetch pass runs to completion over the resulting cache. -/
def runEffectSync (s : AppState) (fetched : Option JikanAnime)
    (oracle : ℕ → Option JikanAnime) : AppState :=
  match s.animeList.get? s.currentIndex with
  | none => { s with jikanData := none }
  | some anime =>
    let r := loadAnimeData s.cache s.jikanData anime.id fetched
    let p := prefetchNext s.animeList s.currentIndex r.cache oracle
    { s with cache := p.cache, jikanData := r.jikan }

/-- The in-place swap `[arr[i], arr[j]] = [arr[j], arr[i]]` (both
indices are in range at every use inside the shuffle). -/
def swapL {α : Type} (l : List α) (i j : ℕ) : List α :=
  match l.get? i, l.get? j with
  | some a, some b => (l.set i b).set j a
  | _, _ => l

/-- The Fisher–Yates loop `for (i = n - 1; i > 0; i--)`, with the random
draw for index `i` supplied as `c i % (i + 1) ∈ [0, i]`. -/
def fisherAux {α : Type} (c : ℕ → ℕ) : ℕ → List α → List α
  | 0, l => l
  | k + 1, l => fisherAux c k (swapL l (k + 1) (c (k + 1) % (k + 2)))

/-- Embedding of `shuffleArray`: the source first copies the input
(`[...array]`) — so the input is never mutated — and then runs the
Fisher–Yates loop on the copy. -/
def shuffleArray {α : Type} (l : List α) (c : ℕ → ℕ) : List α :=
  fisherAux c (l.length - 1) l

/-- Embedding of `handleFileUpload` after a successful XML parse
yielding `entries`: an empty entry list only raises an alert and changes
nothing; otherwise the new shuffled list is installed and the session
state is reset (`cursor`, displayed metadata, decisions, liked
accumulator, cache).  The cooldown flag and its pending timer are not
touched by the source. -/
def handleFileUpload (s : AppState) (entries : List AnimeXml) (c : ℕ → ℕ) :
    AppState :=
  if entries = [] then s
  else
    { s with
      animeList := shuffleArray entries c
      currentIndex := 0
      jikanData := none
      choices := []
      likedShows := []
      cache := [] }

/-- Replacing an element and re-inserting it at the head is a
permutation: `t.get? k = some b → b :: t.set k x ~ x :: t`. -/
theorem cons_set_perm {α : Type} (x b : α) :
    ∀ (t : List α) (k : ℕ), t.get? k = some b →
      List.Perm (b :: t.set k x) (x :: t) := by
  intro t
  induction t with
  | nil => intro k h; cases k <;> exact absurd h (by simp)
  | cons y t ih =>
    intro k h
    cases k with
    | zero =>
      rw [List.get?_cons_zero] at h
      injection h with h
      rw [List.set_cons_zero, ← h]
      exact List.Perm.swap x y t
    | succ k =>
      rw [List.get?_cons_succ] at h
      have h1 : List.Perm (b :: t.set k x) (x :: t) := ih k h
      rw [List.set_cons_succ]
      have h2 : List.Perm (b :: y :: t.set k x) (y :: b :: t.set k x) :=
        List.Perm.swap y b _
      have h3 : List.Perm (y :: b :: t.set k x) (y :: (x :: t)) :=
        List.Perm.cons y h1
      have h4 : List.Perm (y :: x :: t) (x :: y :: t) := List.Perm.swap x y t
      exact (h2.trans h3).trans h4

/-- A double `set` that exchanges two existing elements is a
permutation. -/
theorem set_set_perm {α : Type} :
    ∀ (l : List α) (i j : ℕ) (a b : α),
      l.get? i = some a → l.get? j = some b →
      List.Perm ((l.set i b).set j a) l := by
  intro l
  induction l with
  | nil => intro i j a b hi _; cases i <;> exact absurd hi (by simp)
  | cons x t ih =>
    intro i j a b hi hj
    cases i with
    | zero =>
      rw [List.get?_cons_zero] at hi
      injection hi with hi
      subst hi
      cases j with
      | zero =>
        rw [List.get?_cons_zero] at hj
        injection hj with hj
        subst hj
        rw [List.set_cons_zero, List.set_cons_zero]
      | succ j =>
        rw [List.get?_cons_succ] at hj
        rw [List.set_cons_zero, List.set_cons_succ]
        exact cons_set_perm x b t j hj
    | succ i =>
      rw [List.get?_cons_succ] at hi
      cases j with
      | zero =>
        rw [List.get?_cons_zero] at hj
        injection hj with hj
        subst hj
        rw [List.set_cons_succ, List.set_cons_zero]
        exact cons_set_perm x a t i hi
      | succ j =>
        rw [List.get?_cons_succ] at hj
        rw [List.set_cons_succ, List.set_cons_succ]
        exact List.Perm.cons x (ih i j a b hi hj)

/-- Each Fisher–Yates swap preserves the multiset of elements. -/
theorem swapL_perm {α : Type} (l : List α) (i j : ℕ) :
    List.Perm (swapL l i j) l := by
  unfold swapL
  cases hi : l.get? i with
  | none => exact List.Perm.refl l
  | some a =>
    cases hj : l.get? j with
    | none => exact List.Perm.refl l
    | some b => exact set_set_perm l i j a b hi hj

/-- The whole Fisher–Yates loop preserves the multiset of elements. -/
theorem fisherAux_perm {α : Type} (c : ℕ → ℕ) :
    ∀ (k : ℕ) (l : List α), List.Perm (fisherAux c k l) l := by
  intro k
  induction k with
  | zero => intro l; exact List.Perm.refl l
  | succ k ih =>
    intro l
    exact (ih _).trans (swapL_perm l (k + 1) (c (k + 1) % (k + 2)))

/-- C9: for every input array and every sequence of random draws,
`shuffleArray` returns a permutation of its input — same length, same
multiset of elements — and (by construction: the source copies the
array before shuffling, and the embedding is pure) the input itself is
left unchanged; hence the session list installed by `App` contains
exactly the parsed entries of the export in a randomized order. -/
theorem shuffleArray_is_permutation {α : Type} (l : List α) (c : ℕ → ℕ) :
    List.Perm (shuffleArray l c) l ∧ (shuffleArray l c).length = l.length := by
  have h : List.Perm (shuffleArray l c) l := fisherAux_perm c (l.length - 1) l
  exact ⟨h, h.length_eq⟩

/-- Phase of a pending prefetch pass: sleeping in its 900 ms
`setTimeout` before the call for the current window slot, or awaiting
the fetch response for that slot. -/
inductive PrefetchPhase where
  | sleeping (idStr : String) (num : Int) (wakeAt : ℕ)
  | awaitingFetch (idStr : String) (num : Int)
deriving DecidableEq

/-- A pending asynchronous computation of the component: the foreground
`loadAnimeData` awaiting its fetch, a `prefetchNext` pass (which
captured the `animeList` and window bounds of the render that spawned
it), or the cooldown-reset `setTimeout` armed by `handleChoice`. -/
inductive TaskB where
  | awaitingLoad (idStr : String) (num : Int)
  | prefetchTask (list : List AnimeXml) (i : ℕ) (stop : ℕ) (ph : PrefetchPhase)
  | cooldownTimer (fireAt : ℕ)
deriving DecidableEq

/-- Instrumentation record of one outbound call to the metadata
service: the numeric identifier in the request URL, the logical origin
(`none` = the foreground resolve path, `some k` = the prefetch task
stored at slot `k`), and the clock time at which the call started. -/
structure CallRec where
  num : Int
  origin : Option ℕ
  start : ℕ
deriving DecidableEq

/-- Event-loop state of the component: the clock, the React state and
the cache, the pending tasks (a slot becomes `none` when its task
finishes; slots are only appended, so a slot index identifies one task
for the whole run), and the log of outbound calls. -/
structure StateB where
  time : ℕ
  animeList : List AnimeXml
  currentIndex : ℕ
  jikanData : Option JikanAnime
  choices : List (String × Decision)
  likedShows : List JikanAnime
  isCooldown : Bool
  cache : CacheMap
  tasks : List (Option TaskB)
  callLog : List CallRec
deriving DecidableEq

/-- The skip scan of the `prefetchNext` loop: starting at window
position `i` with `fuel` positions left before the window bound, find
the first slot whose entry exists, is not cached, and has a numeric
identifier; missing, cached, and non-numeric slots are passed over
(`continue`) synchronously.  Returns the slot index together with the
identifier and its numeric form, or `none` when the loop finishes. -/
def pfFind (cache : CacheMap) (list : List AnimeXml) :
    ℕ → ℕ → Option (ℕ × String × Int)
  | _, 0 => none
  | i, fuel + 1 =>
    match list.get? i with
    | none => pfFind cache list (i + 1) fuel
    | some next =>
      if (recLookup next.id cache).isSome then pfFind cache list (i + 1) fuel
      else
        match parseInt10 next.id with
        | none => pfFind cache list (i + 1) fuel
        | some n => some (i, next.id, n)

/-- Events of the environment and the user, each triggering one
synchronous segment of the component (JavaScript runs each such segment
atomically):

* `tick dt` — the clock advances;
* `runEffect` — the data effect runs for the current `animeList` and
  `currentIndex` (React runs it after the list loads and after every
  cursor change): the synchronous prefix of `loadAnimeData` (cache
  check, parse, and, on a miss, starting the fetch) followed by the
  synchronous prefix of `prefetchNext` (skip scan up to the first slot
  that enters its 900 ms sleep);
* `wake k` — the sleep of prefetch task `k` has elapsed and its fetch
  starts;
* `completeFetch k res` — the pending fetch of task `k` completes with
  `res` (`some` = 2xx payload, `none` = any failure); a prefetch task
  then continues its loop synchronously up to its next sleep or its end;
* `userChoice c` — the user clicks like/dislike (`handleChoice`);
* `fireCooldown k` — the armed cooldown `setTimeout` fires;
* `uploadList entries c` — `handleFileUpload` finishes parsing an
  uploaded file into `entries` and resets the session (the shuffle draws
  come from `c`); pending tasks are *not* cancelled by the source.

Guarded events that do not apply in the current state (a timer fired
early, a completion for a task that is not awaiting a fetch, …) leave
the state unchanged, so every event list denotes a schedule the real
event loop could produce. -/
inductive EventB where
  | tick (dt : ℕ)
  | runEffect
  | wake (k : ℕ)
  | completeFetch (k : ℕ) (res : Option JikanAnime)
  | userChoice (c : Decision)
  | fireCooldown (k : ℕ)
  | uploadList (entries : List AnimeXml) (c : ℕ → ℕ)

/-- The `runEffect` segment (effect body of the source, run up to the
first suspension of each of its two async functions). -/
def runEffectB (s : StateB) : StateB :=
  match s.animeList.get? s.currentIndex with
  | none => { s with jikanData := none }
  | some anime =>
    let s₁ :=
      match recLookup anime.id s.cache with
      | some v => { s with jikanData := some v }
      | none =>
        match parseInt10 anime.id with
        | none => s
        | some n =>
          { s with
            callLog := s.callLog ++ [⟨n, none, s.time⟩]
            tasks := s.tasks ++ [some (TaskB.awaitingLoad anime.id n)] }
    match pfFind s₁.cache s.animeList (s.currentIndex + 1) 3 with
    | none => s₁
    | some (i, idStr, n) =>
      { s₁ with
        tasks := s₁.tasks ++
          [some (TaskB.prefetchTask s.animeList i (s.currentIndex + 4)
            (PrefetchPhase.sleeping idStr n (s.time + 900)))] }

/-- The `wake k` segment: the 900 ms sleep of prefetch task `k` ends
and its fetch for the current slot starts.  The source does not
re-check the cache after the sleep. -/
def wakeB (s : StateB) (k : ℕ) : StateB :=
  match s.tasks.get? k with
  | some (some (TaskB.prefetchTask list i stop (PrefetchPhase.sleeping idStr n wakeAt))) =>
    if wakeAt ≤ s.time then
      { s with
        callLog := s.callLog ++ [⟨n, some k, s.time⟩]
        tasks := s.tasks.set k
          (some (TaskB.prefetchTask list i stop (PrefetchPhase.awaitingFetch idStr n))) }
    else s
  | _ => s

/-- The `completeFetch k res` segment.  A foreground load publishes a
success to the cache and the display, or clears the display on failure.
A prefetch task caches a success (an unconditional object assignment —
the source never re-checks the key), drops a failure, and then
continues its loop synchronously to its next sleeping slot or its
end. -/
def completeFetchB (s : StateB) (k : ℕ) (res : Option JikanAnime) : StateB :=
  match s.tasks.get? k with
  | some (some (TaskB.awaitingLoad idStr _)) =>
    match res with
    | some v =>
      { s with
        cache := recordSet s.cache idStr v
        jikanData := some v
        tasks := s.tasks.set k none }
    | none => { s with jikanData := none, tasks := s.tasks.set k none }
  | some (some (TaskB.prefetchTask list i stop (PrefetchPhase.awaitingFetch idStr _))) =>
    let cache' :=
      match res with
      | some v => recordSet s.cache idStr v
      | none => s.cache
    match pfFind cache' list (i + 1) (stop - (i + 1)) with
    | none => { s with cache := cache', tasks := s.tasks.set k none }
    | some (i', idStr', n') =>
      { s with
        cache := cache'
        tasks := s.tasks.set k
          (some (TaskB.prefetchTask list i' stop
            (PrefetchPhase.sleeping idStr' n' (s.time + 900)))) }
  | _ => s

/-- The `userChoice c` segment (`handleChoice` of the source): ignored
during cooldown; otherwise the cooldown is armed with its 1000 ms reset
timer, and then, if the current entry exists and some metadata is
displayed, the decision is recorded, a liked decision appends the
displayed metadata, and the cursor advances. -/
def userChoiceB (s : StateB) (c : Decision) : StateB :=
  if s.isCooldown then s
  else
    let s₁ :=
      { s with
        isCooldown := true
        tasks := s.tasks ++ [some (TaskB.cooldownTimer (s.time + 1000))] }
    match s.animeList.get? s.currentIndex, s.jikanData with
    | some anime, some jd =>
      let s₂ := { s₁ with choices := recordSet s₁.choices anime.id c }
      let s₃ :=
        if c = Decision.liked then
          { s₂ with likedShows := s₂.likedShows ++ [jd] }
        else s₂
      { s₃ with currentIndex := s₃.currentIndex + 1 }
    | _, _ => s₁

/-- The `fireCooldown k` segment: the armed `setTimeout` fires and
clears the cooldown flag. -/
def fireCooldownB (s : StateB) (k : ℕ) : StateB :=
  match s.tasks.get? k with
  | some (some (TaskB.cooldownTimer fireAt)) =>
    if fireAt ≤ s.time then
      { s with isCooldown := false, tasks := s.tasks.set k none }
    else s
  | _ => s

/-- The `uploadList` segment (`handleFileUpload` after a successful
parse): an empty entry list only alerts; otherwise the new shuffled
list is installed and the session state is reset.  The source does not
cancel pending tasks and replaces `cacheRef.current` through the shared
ref, so surviving tasks keep writing into the fresh cache. -/
def uploadListB (s : StateB) (entries : List AnimeXml) (c : ℕ → ℕ) : StateB :=
  if entries = [] then s
  else
    { s with
      animeList := shuffleArray entries c
      currentIndex := 0
      jikanData := none
      choices := []
      likedShows := []
      cache := [] }

/-- One step of the event-loop semantics. -/
def stepB (s : StateB) : EventB → StateB
  | EventB.tick dt => { s with time := s.time + dt }
  | EventB.runEffect => runEffectB s
  | EventB.wake k => wakeB s k
  | EventB.completeFetch k res => completeFetchB s k res
  | EventB.userChoice c => userChoiceB s c
  | EventB.fireCooldown k => fireCooldownB s k
  | EventB.uploadList entries c => uploadListB s entries c

/-- A run of the event loop over a schedule. -/
def runB (events : List EventB) (s : StateB) : StateB :=
  events.foldl stepB s

/-- The state right after the session list has been loaded, at clock
zero: cursor 0, nothing displayed, no decisions, empty cache, no
pending tasks, no calls. -/
def initB (list : List AnimeXml) : StateB :=
  ⟨0, list, 0, none, [], [], false, [], [], []⟩

/-- Minimal concrete metadata value used by concrete runs. -/
def mkAnime (n : Int) (t : String) : JikanAnime :=
  ⟨n, t, none, ⟨⟨"u", none⟩⟩, none, none, none, none, none⟩

/-- Minimal concrete list entry used by concrete runs. -/
def mkEntry (i : String) : AnimeXml :=
  ⟨i, "title", "watching"⟩

/-- C7: an identifier that does not parse as a numeric id is skipped by
both paths: the foreground `loadAnimeData` returns without issuing a
call and without touching the cache, and a `prefetchNext` loop
iteration whose entry carries such an identifier leaves its
accumulator — cache, calls, and delay count — completely unchanged, so
no fetch slot (no 900 ms delay) is consumed and nothing is written to
the cache. -/
theorem nonNumeric_skipped (cache : CacheMap) (jikan : Option JikanAnime)
    (id : String) (fetched : Option JikanAnime) (h : parseInt10 id = none) :
    ((loadAnimeData cache jikan id fetched).calls = [] ∧
      (loadAnimeData cache jikan id fetched).cache = cache) ∧
    (∀ (list : List AnimeXml) (oracle : ℕ → Option JikanAnime)
        (acc : PrefetchResult) (i : ℕ) (next : AnimeXml),
        list.get? i = some next → next.id = id →
        prefetchStep list oracle acc i = acc) := by
  constructor
  · unfold loadAnimeData
    cases hl : recLookup id cache with
    | some v => exact ⟨rfl, rfl⟩
    | none => rw [h]; exact ⟨rfl, rfl⟩
  · intro list oracle acc i next hget hid
    unfold prefetchStep
    rw [hget]
    by_cases hc : (recLookup next.id acc.cache).isSome
    · simp [hc]
    · simp [hc, hid, h]

/-- Witness for C7 at the concrete identifier `"abc"`. -/
theorem nonNumeric_skipped_witness :
    (loadAnimeData [] none "abc" none).calls = [] ∧
    prefetchStep [mkEntry "abc"] (fun _ => none) ⟨[], [], 0⟩ 0 = ⟨[], [], 0⟩ := by
  have h := nonNumeric_skipped [] none "abc" none (by decide)
  exact ⟨h.1.1, h.2 [mkEntry "abc"] (fun _ => none) ⟨[], [], 0⟩ 0 (mkEntry "abc")
    rfl rfl⟩

/-- C5 (amended): clicks during cooldown are ignored outright; when the
cooldown is inactive, the current entry exists, and *some* metadata is
displayed (`jikanData ≠ null` — which, because the handler does not
check that the displayed value belongs to the current entry, may still
be a previous item's metadata), the decision is accepted: it is
recorded in the decisions record keyed by the current entry's
identifier, the *displayed* metadata is appended to the liked
accumulator exactly when the decision is liked, the cooldown is armed
together with its 1000 ms reset timer, and the cursor advances by
exactly one. -/
theorem userChoice_accept_spec (s : StateB) (c : Decision) (a : AnimeXml)
    (jd : JikanAnime) (hcd : s.isCooldown = false)
    (ha : s.animeList.get? s.currentIndex = some a)
    (hj : s.jikanData = some jd) :
    (stepB s (EventB.userChoice c)).choices = recordSet s.choices a.id c ∧
    (stepB s (EventB.userChoice c)).likedShows =
      (if c = Decision.liked then s.likedShows ++ [jd] else s.likedShows) ∧
    (stepB s (EventB.userChoice c)).isCooldown = true ∧
    (stepB s (EventB.userChoice c)).tasks =
      s.tasks ++ [some (TaskB.cooldownTimer (s.time + 1000))] ∧
    (stepB s (EventB.userChoice c)).currentIndex = s.currentIndex + 1 ∧
    (∀ s₂ : StateB, s₂.isCooldown = true →
      stepB s₂ (EventB.userChoice c) = s₂) := by
  have hstep : stepB s (EventB.userChoice c) = userChoiceB s c := rfl
  rw [hstep]
  unfold userChoiceB
  rw [hcd, ha, hj]
  refine ⟨?_, ?_, ?_, ?_, ?_, ?_⟩
  · cases c <;> rfl
  · cases c <;> rfl
  · cases c <;> rfl
  · cases c <;> rfl
  · cases c <;> rfl
  · intro s₂ h₂
    have : stepB s₂ (EventB.userChoice c) = userChoiceB s₂ c := rfl
    rw [this]
    unfold userChoiceB
    rw [h₂]
    rfl

/-- Witness for the amended C5 at a concrete accepted decision. -/
theorem userChoice_accept_spec_witness :
    (stepB ⟨0, [mkEntry "1"], 0, some (mkAnime 1 "A"), [], [], false, [], [], []⟩
        (EventB.userChoice Decision.liked)).currentIndex = 1 ∧
    (stepB ⟨0, [mkEntry "1"], 0, some (mkAnime 1 "A"), [], [], false, [], [], []⟩
        (EventB.userChoice Decision.liked)).choices = [("1", Decision.liked)] ∧
    (stepB ⟨0, [mkEntry "1"], 0, some (mkAnime 1 "A"), [], [], false, [], [], []⟩
        (EventB.userChoice Decision.liked)).likedShows = [mkAnime 1 "A"] ∧
    (stepB ⟨0, [mkEntry "1"], 0, some (mkAnime 1 "A"), [], [], false, [], [], []⟩
        (EventB.userChoice Decision.liked)).isCooldown = true := by
  have h := userChoice_accept_spec
    ⟨0, [mkEntry "1"], 0, some (mkAnime 1 "A"), [], [], false, [], [], []⟩
    Decision.liked (mkEntry "1") (mkAnime 1 "A") rfl rfl rfl
  exact ⟨h.2.2.2.2.1, h.1, h.2.1, h.2.2.1⟩

/-- Session list on which a stale-display decision is reachable. -/
def staleList : List AnimeXml :=
  [mkEntry "1", mkEntry "2", mkEntry "3", mkEntry "4", mkEntry "5"]

/-- Schedule reaching a state where the cursor points at entry `"2"`,
whose resolution is still in flight, while entry `"1"`'s metadata is
still displayed and the cooldown has already expired. -/
def staleEvents : List EventB :=
  [EventB.runEffect, EventB.completeFetch 0 (some (mkAnime 1 "A")),
   EventB.userChoice Decision.liked, EventB.runEffect, EventB.tick 1100,
   EventB.fireCooldown 2]

/-- The reachable state at the moment of the second click. -/
def staleS : StateB := runB staleEvents (initB staleList)

/-- C5 counterexample: in the reachable state `staleS` the cooldown is
inactive and *no* resolved metadata exists for the current item (entry
`"2"` is not cached; the display still holds entry `"1"`'s metadata,
whose `mal_id` is 1), yet a decision is *accepted*: it is recorded for
`"2"`, the cursor advances, and the stale metadata of `"1"` — not the
current item's metadata — is appended to the liked accumulator.  This
refutes the claim that a decision is accepted only when a resolved
metadata value exists for the current item (and that the accepted
decision appends the current item's metadata). -/
theorem userChoice_stale_accept_cex :
    staleS.isCooldown = false ∧
    staleS.currentIndex = 1 ∧
    staleS.animeList.get? 1 = some (mkEntry "2") ∧
    recLookup "2" staleS.cache = none ∧
    staleS.jikanData = some (mkAnime 1 "A") ∧
    (stepB staleS (EventB.userChoice Decision.liked)).currentIndex = 2 ∧
    recLookup "2" (stepB staleS (EventB.userChoice Decision.liked)).choices =
      some Decision.liked ∧
    (stepB staleS (EventB.userChoice Decision.liked)).likedShows =
      [mkAnime 1 "A", mkAnime 1 "A"] := by
  decide

/-- C10 (amended): when the cooldown is inactive and either the cursor
is past the end of the list or the *displayed* metadata state is empty
(`jikanData = null` — nothing resolved yet, or the last foreground
resolve failed), a click is rejected: the cursor, the decisions record,
the liked accumulator, the cache, and the displayed metadata are all
left unchanged, yet the cooldown is still armed for its full 1000 ms
window (with its reset timer), so the rejected decision consumes a
cooldown period. -/
theorem userChoice_reject_spec (s : StateB) (c : Decision)
    (hcd : s.isCooldown = false)
    (h : s.animeList.get? s.currentIndex = none ∨ s.jikanData = none) :
    stepB s (EventB.userChoice c) =
      { s with
        isCooldown := true
        tasks := s.tasks ++ [some (TaskB.cooldownTimer (s.time + 1000))] } := by
  have hstep : stepB s (EventB.userChoice c) = userChoiceB s c := rfl
  rw [hstep]
  unfold userChoiceB
  rw [hcd]
  rcases h with h | h
  · rw [h]
    cases s.jikanData <;> rfl
  · rw [h]
    cases s.animeList.get? s.currentIndex <;> rfl

/-- Witness for the amended C10: a click at session start, before
anything has resolved, changes nothing but the armed cooldown. -/
theorem userChoice_reject_spec_witness :
    stepB (initB [mkEntry "1"]) (EventB.userChoice Decision.liked) =
      ⟨0, [mkEntry "1"], 0, none, [], [], true,
        [], [some (TaskB.cooldownTimer 1000)], []⟩ := by
  exact userChoice_reject_spec (initB [mkEntry "1"]) Decision.liked rfl (Or.inr rfl)

/-- Session list for the C10 counterexample. -/
def rejList : List AnimeXml := [mkEntry "7", mkEntry "8", mkEntry "9"]

/-- Schedule reaching a state with the cursor on unresolved entry `"8"`
while entry `"7"`'s metadata is still displayed and the cooldown has
expired. -/
def rejEvents : List EventB :=
  [EventB.runEffect, EventB.completeFetch 0 (some (mkAnime 7 "B")),
   EventB.userChoice Decision.disliked, EventB.runEffect, EventB.tick 1100,
   EventB.fireCooldown 2]

/-- The reachable state at the moment of the second click. -/
def rejS : StateB := runB rejEvents (initB rejList)

/-- C10 counterexample: in the reachable state `rejS` the cooldown is
inactive and no resolved metadata exists for the current entry `"8"`
(it is not cached, its foreground fetch is still pending), so the claim
demands rejection with cursor and decisions unchanged; but because the
*previous* entry's metadata is still displayed (`jikanData ≠ null`),
the code *accepts* the decision: the cursor advances from 1 to 2 and a
decision for `"8"` is recorded. -/
theorem userChoice_reject_cex :
    rejS.isCooldown = false ∧
    rejS.currentIndex = 1 ∧
    rejS.animeList.get? 1 = some (mkEntry "8") ∧
    recLookup "8" rejS.cache = none ∧
    rejS.jikanData = some (mkAnime 7 "B") ∧
    (stepB rejS (EventB.userChoice Decision.disliked)).currentIndex = 2 ∧
    recLookup "8" (stepB rejS (EventB.userChoice Decision.disliked)).choices =
      some Decision.disliked := by
  decide

/-- C6 (amended): the decisions record only ever grows — no key is ever
removed within a session, and a decision stored under an identifier is
never changed by deciding a *different* identifier.  (When the same
identifier occurs at two distinct list positions, however, the later
decision is stored under the same key and shadows the earlier one, as
`decisions_overwrite_cex` shows.) -/
theorem handleChoice_decisions_monotone (s : AppState) (now : ℕ) (c : Decision) :
    (∀ k v, recLookup k s.choices = some v →
      (∀ a, s.animeList.get? s.currentIndex = some a → a.id ≠ k) →
      recLookup k (handleChoice s now c).choices = some v) ∧
    (∀ k, (recLookup k s.choices).isSome →
      (recLookup k (handleChoice s now c).choices).isSome) := by
  cases hcd : s.isCooldown with
  | true =>
    have h : handleChoice s now c = s := by
      unfold handleChoice; rw [hcd]; rfl
    rw [h]
    exact ⟨fun _ _ hv _ => hv, fun _ hv => hv⟩
  | false =>
    cases ha : s.animeList.get? s.currentIndex with
    | none =>
      have h : (handleChoice s now c).choices = s.choices := by
        unfold handleChoice; rw [hcd, ha]; cases s.jikanData <;> rfl
      rw [h]
      exact ⟨fun _ _ hv _ => hv, fun _ hv => hv⟩
    | some a =>
      cases hj : s.jikanData with
      | none =>
        have h : (handleChoice s now c).choices = s.choices := by
          unfold handleChoice; rw [hcd, ha, hj]; rfl
        rw [h]
        exact ⟨fun _ _ hv _ => hv, fun _ hv => hv⟩
      | some jd =>
        have h : (handleChoice s now c).choices = (a.id, c) :: s.choices := by
          unfold handleChoice; rw [hcd, ha, hj]; cases c <;> rfl
        rw [h]
        constructor
        · intro k v hv hne
          simp only [recLookup]
          rw [if_neg (hne a rfl)]
          exact hv
        · intro k hv
          simp only [recLookup]
          by_cases hk : a.id = k
          · rw [if_pos hk]; rfl
          · rw [if_neg hk]; exact hv

/-- Witness for the amended C6: deciding entry `"2"` leaves the stored
decision for `"1"` intact. -/
theorem handleChoice_decisions_monotone_witness :
    recLookup "1"
      (handleChoice
        ⟨[mkEntry "2"], 0, some (mkAnime 2 "B"), [("1", Decision.liked)], [],
          false, none, []⟩ 0 Decision.disliked).choices = some Decision.liked := by
  have h := handleChoice_decisions_monotone
    ⟨[mkEntry "2"], 0, some (mkAnime 2 "B"), [("1", Decision.liked)], [],
      false, none, []⟩ 0 Decision.disliked
  exact h.1 "1" Decision.liked (by decide)
    (fun a hget => by
      have : a = mkEntry "2" := by
        have h0 : ([mkEntry "2"] : List AnimeXml).get? 0 = some (mkEntry "2") := rfl
        rw [h0] at hget
        exact (Option.some_injective _ hget).symm
      rw [this]
      decide)

/-- Session state chain realizing a duplicate-identifier overwrite: the
list contains the same identifier `"1"` at positions 0 and 1; the first
decision is liked, the cooldown expires, the effect re-runs (a cache
hit), and the second decision is disliked. -/
def dupRunS2 : AppState :=
  handleChoice
    (runEffectSync
      (handleFileUpload ⟨[], 0, none, [], [], false, none, []⟩
        [mkEntry "1", mkEntry "1"] (fun _ => 0))
      (some (mkAnime 1 "A")) (fun _ => none))
    0 Decision.liked

/-- The state after the cooldown expires, the effect re-runs for the
second position (a cache hit on the same identifier), and the second
decision (disliked) is taken. -/
def dupRunS5 : AppState :=
  handleChoice (runEffectSync (cooldownFire dupRunS2) none (fun _ => none))
    1001 Decision.disliked

/-- C6 counterexample: with the same identifier `"1"` at two distinct
positions of the loaded list (duplicates the claim explicitly
tolerates), the decision recorded for `"1"` at position 0 is `liked`,
and after the cursor advances to position 1 the second decision
*overwrites* it to `disliked` — so an identifier, once mapped, does
*not* keep its value for the rest of the session. -/
theorem decisions_overwrite_cex :
    dupRunS2.currentIndex = 1 ∧
    recLookup "1" dupRunS2.choices = some Decision.liked ∧
    dupRunS5.currentIndex = 2 ∧
    recLookup "1" dupRunS5.choices = some Decision.disliked := by
  decide

/-- C8 (amended): immediately after a successful file upload
(`handleFileUpload` with a non-empty parsed entry list) the cache is
empty, the decisions record is empty, the liked accumulator is empty,
the cursor is 0, and the displayed metadata is absent; the new session
list is the shuffled upload.  (Resolve tasks already in flight for the
prior list are *not* cancelled, however, and may later write prior-list
state into the fresh session — see `upload_residual_state_cex`.) -/
theorem uploadList_resets (s : StateB) (entries : List AnimeXml) (c : ℕ → ℕ)
    (h : entries ≠ []) :
    (stepB s (EventB.uploadList entries c)).cache = [] ∧
    (stepB s (EventB.uploadList entries c)).choices = [] ∧
    (stepB s (EventB.uploadList entries c)).likedShows = [] ∧
    (stepB s (EventB.uploadList entries c)).currentIndex = 0 ∧
    (stepB s (EventB.uploadList entries c)).jikanData = none ∧
    (stepB s (EventB.uploadList entries c)).animeList =
      shuffleArray entries c := by
  have hstep : stepB s (EventB.uploadList entries c) = uploadListB s entries c :=
    rfl
  rw [hstep]
  unfold uploadListB
  rw [if_neg h]
  exact ⟨rfl, rfl, rfl, rfl, rfl, rfl⟩

/-- Witness for the amended C8 at a concrete upload over a dirty
session. -/
theorem uploadList_resets_witness :
    (stepB
        ⟨500, [mkEntry "1"], 1, some (mkAnime 1 "A"), [("1", Decision.liked)],
          [mkAnime 1 "A"], false, [("1", mkAnime 1 "A")], [], []⟩
        (EventB.uploadList [mkEntry "9"] (fun _ => 0))).cache = [] ∧
    (stepB
        ⟨500, [mkEntry "1"], 1, some (mkAnime 1 "A"), [("1", Decision.liked)],
          [mkAnime 1 "A"], false, [("1", mkAnime 1 "A")], [], []⟩
        (EventB.uploadList [mkEntry "9"] (fun _ => 0))).choices = [] ∧
    (stepB
        ⟨500, [mkEntry "1"], 1, some (mkAnime 1 "A"), [("1", Decision.liked)],
          [mkAnime 1 "A"], false, [("1", mkAnime 1 "A")], [], []⟩
        (EventB.uploadList [mkEntry "9"] (fun _ => 0))).currentIndex = 0 := by
  have h := uploadList_resets
    ⟨500, [mkEntry "1"], 1, some (mkAnime 1 "A"), [("1", Decision.liked)],
      [mkAnime 1 "A"], false, [("1", mkAnime 1 "A")], [], []⟩
    [mkEntry "9"] (fun _ => 0) (by decide)
  exact ⟨h.1, h.2.1, h.2.2.2.1⟩

/-- Prior session list for the C8 counterexample. -/
def oldList : List AnimeXml :=
  [mkEntry "1", mkEntry "2", mkEntry "3", mkEntry "4"]

/-- Schedule: the first effect starts a foreground fetch for `"1"` and
a prefetch pass for `"2"`; then a new one-entry list (`"9"`) is
uploaded; the surviving prefetch pass wakes, calls out for the
prior-list entry `"2"`, and writes its payload into the *new* session's
cache. -/
def uploadCexEvents : List EventB :=
  [EventB.runEffect, EventB.uploadList [mkEntry "9"] (fun _ => 0),
   EventB.tick 900, EventB.wake 1, EventB.completeFetch 1 (some (mkAnime 2 "old"))]

/-- C8 counterexample: right after the upload the cache is empty, but
the prior list's prefetch task was never cancelled; afterwards the new
session's cache contains the prior-list identifier `"2"` — which does
not occur in the new list `["9"]` at all — and the call log shows an
outbound call for the prior list made *after* the reset.  So state from
the prior list *is* observable after a new list is loaded. -/
theorem upload_residual_state_cex :
    (runB [EventB.runEffect, EventB.uploadList [mkEntry "9"] (fun _ => 0)]
        (initB oldList)).cache = [] ∧
    (runB uploadCexEvents (initB oldList)).animeList = [mkEntry "9"] ∧
    recLookup "2" (runB uploadCexEvents (initB oldList)).cache =
      some (mkAnime 2 "old") ∧
    (runB uploadCexEvents (initB oldList)).callLog =
      [⟨1, none, 0⟩, ⟨2, some 1, 900⟩] := by
  decide

/-- Session list with the same identifier `"1"` at positions 0 and 1. -/
def dupList : List AnimeXml :=
  [mkEntry "1", mkEntry "1", mkEntry "2", mkEntry "3"]

/-- Schedule: the effect starts the foreground fetch for `"1"` and a
prefetch pass whose first window slot is the duplicate `"1"` (not yet
cached, so the code does not skip it); after the 900 ms sleep the
prefetch fetch for `"1"` also starts. -/
def dupCallEvents : List EventB :=
  [EventB.runEffect, EventB.tick 900, EventB.wake 1]

/-- C1 counterexample: two outbound calls for the same identifier 1 are
made — one by the foreground path at t = 0 and one by the prefetch path
at t = 900 — and both are still in flight at the end of the run (the
foreground task is still awaiting its response when the prefetch call
starts).  The code has no in-flight de-duplication ledger, so the
claimed "exactly one outbound call per identifier, at most one in
flight at any instant" fails. -/
theorem duplicate_inflight_calls_cex :
    (runB dupCallEvents (initB dupList)).callLog =
      [⟨1, none, 0⟩, ⟨1, some 1, 900⟩] ∧
    (runB dupCallEvents (initB dupList)).tasks.get? 0 =
      some (some (TaskB.awaitingLoad "1" 1)) ∧
    (runB dupCallEvents (initB dupList)).tasks.get? 1 =
      some (some (TaskB.prefetchTask dupList 1 4
        (PrefetchPhase.awaitingFetch "1" 1))) := by
  decide

/-- C1 (amended): the only de-duplication the code performs is the
cache check each path makes before its own (possibly delayed) call:
when the current entry's identifier is already cached at the moment the
effect runs, the foreground path issues no outbound call and the
requester observes the cached value.  There is no in-flight ledger, so
overlapping resolve paths for a not-yet-cached identifier each issue
their own outbound call (see `duplicate_inflight_calls_cex`), and their
requesters may observe different results. -/
theorem runEffect_cached_hit_no_call (s : StateB) (a : AnimeXml)
    (v : JikanAnime) (ha : s.animeList.get? s.currentIndex = some a)
    (hv : recLookup a.id s.cache = some v) :
    (stepB s EventB.runEffect).callLog = s.callLog ∧
    (stepB s EventB.runEffect).jikanData = some v := by
  have hstep : stepB s EventB.runEffect = runEffectB s := rfl
  rw [hstep]
  unfold runEffectB
  simp only [ha]
  simp only [hv]
  cases hpf : pfFind s.cache s.animeList (s.currentIndex + 1) 3 with
  | none => exact ⟨rfl, rfl⟩
  | some t =>
    rcases t with ⟨i, idStr, n⟩
    exact ⟨rfl, rfl⟩

/-- Witness for the amended C1: with `"1"` already cached, the effect
issues no call and displays the cached value. -/
theorem runEffect_cached_hit_no_call_witness :
    (stepB ⟨0, [mkEntry "1"], 0, none, [], [], false, [("1", mkAnime 1 "A")],
        [], []⟩ EventB.runEffect).callLog = [] ∧
    (stepB ⟨0, [mkEntry "1"], 0, none, [], [], false, [("1", mkAnime 1 "A")],
        [], []⟩ EventB.runEffect).jikanData = some (mkAnime 1 "A") := by
  exact runEffect_cached_hit_no_call
    ⟨0, [mkEntry "1"], 0, none, [], [], false, [("1", mkAnime 1 "A")], [], []⟩
    (mkEntry "1") (mkAnime 1 "A") rfl (by decide)

/-- Schedule in which both the foreground path and the (duplicate-slot)
prefetch path fetch identifier `"1"`, and their two responses arrive
one after the other. -/
def overwriteEvents : List EventB :=
  [EventB.runEffect, EventB.tick 900, EventB.wake 1,
   EventB.completeFetch 0 (some (mkAnime 1 "A")),
   EventB.completeFetch 1 (some (mkAnime 1 "B"))]

/-- C3 counterexample: after the foreground response arrives,
`get("1")` returns the payload `mkAnime 1 "A"`; when the prefetch
response for the same identifier arrives later, the source's
unconditional object assignment *overwrites* the populated entry, and
`get("1")` afterwards returns the different payload `mkAnime 1 "B"`.
So a put on an already-populated key is not a no-op, and a value
returned by `get` can change within a session. -/
theorem cache_overwrite_cex :
    recLookup "1"
      (runB [EventB.runEffect, EventB.tick 900, EventB.wake 1,
          EventB.completeFetch 0 (some (mkAnime 1 "A"))]
        (initB dupList)).cache = some (mkAnime 1 "A") ∧
    recLookup "1" (runB overwriteEvents (initB dupList)).cache =
      some (mkAnime 1 "B") ∧
    mkAnime 1 "A" ≠ mkAnime 1 "B" := by
  decide

/-- The cache after the effect segment is unchanged (the effect only
starts fetches; writes happen at completions). -/
theorem runEffectB_cache (s : StateB) : (runEffectB s).cache = s.cache := by
  unfold runEffectB
  cases ha : s.animeList.get? s.currentIndex with
  | none => rfl
  | some a =>
    cases hl : recLookup a.id s.cache with
    | some v =>
      simp only [hl]
      cases hpf : pfFind s.cache s.animeList (s.currentIndex + 1) 3 with
      | none => rfl
      | some t => rcases t with ⟨i, idStr, n⟩; rfl
    | none =>
      simp only [hl]
      cases hp : parseInt10 a.id with
      | none =>
        simp only
        cases hpf : pfFind s.cache s.animeList (s.currentIndex + 1) 3 with
        | none => rfl
        | some t => rcases t with ⟨i, idStr, n⟩; rfl
      | some n =>
        simp only
        cases hpf : pfFind s.cache s.animeList (s.currentIndex + 1) 3 with
        | none => rfl
        | some t => rcases t with ⟨i, idStr, n'⟩; rfl

/-- The wake segment never writes the cache. -/
theorem wakeB_cache (s : StateB) (k : ℕ) : (wakeB s k).cache = s.cache := by
  unfold wakeB
  cases h : s.tasks.get? k with
  | none => rfl
  | some t =>
    cases t with
    | none => rfl
    | some tk =>
      cases tk with
      | awaitingLoad idStr n => rfl
      | cooldownTimer fireAt => rfl
      | prefetchTask list i stop ph =>
        cases ph with
        | sleeping idStr n wakeAt =>
          dsimp only
          by_cases hw : wakeAt ≤ s.time
          · rw [if_pos hw]
          · rw [if_neg hw]
        | awaitingFetch idStr n => rfl

/-- The click segment never writes the cache. -/
theorem userChoiceB_cache (s : StateB) (c : Decision) :
    (userChoiceB s c).cache = s.cache := by
  unfold userChoiceB
  by_cases hcd : s.isCooldown
  · rw [if_pos hcd]
  · rw [if_neg hcd]
    cases ha : s.animeList.get? s.currentIndex with
    | none => cases s.jikanData <;> rfl
    | some a =>
      cases s.jikanData with
      | none => rfl
      | some jd => cases c <;> rfl

/-- The cooldown-timer segment never writes the cache. -/
theorem fireCooldownB_cache (s : StateB) (k : ℕ) :
    (fireCooldownB s k).cache = s.cache := by
  unfold fireCooldownB
  cases h : s.tasks.get? k with
  | none => rfl
  | some t =>
    cases t with
    | none => rfl
    | some tk =>
      cases tk with
      | awaitingLoad idStr n => rfl
      | prefetchTask list i stop ph => rfl
      | cooldownTimer fireAt =>
        dsimp only
        by_cases hw : fireAt ≤ s.time
        · rw [if_pos hw]
        · rw [if_neg hw]

/-- A fetch completion only ever *prepends* bindings to the cache. -/
theorem completeFetchB_cache_extend (s : StateB) (k : ℕ)
    (res : Option JikanAnime) :
    ∃ l, (completeFetchB s k res).cache = l ++ s.cache := by
  unfold completeFetchB
  cases h : s.tasks.get? k with
  | none => exact ⟨[], rfl⟩
  | some t =>
    cases t with
    | none => exact ⟨[], rfl⟩
    | some tk =>
      cases tk with
      | cooldownTimer fireAt => exact ⟨[], rfl⟩
      | awaitingLoad idStr n =>
        cases res with
        | some v => exact ⟨[(idStr, v)], rfl⟩
        | none => exact ⟨[], rfl⟩
      | prefetchTask list i stop ph =>
        cases ph with
        | sleeping idStr n wakeAt => exact ⟨[], rfl⟩
        | awaitingFetch idStr n =>
          cases res with
          | some v =>
            dsimp only
            cases hpf : pfFind (recordSet s.cache idStr v) list (i + 1)
                (stop - (i + 1)) with
            | none => exact ⟨[(idStr, v)], rfl⟩
            | some t' => rcases t' with ⟨i', idStr', n'⟩; exact ⟨[(idStr, v)], rfl⟩
          | none =>
            dsimp only
            cases hpf : pfFind s.cache list (i + 1) (stop - (i + 1)) with
            | none => exact ⟨[], rfl⟩
            | some t' => rcases t' with ⟨i', idStr', n'⟩; exact ⟨[], rfl⟩

/-- Any step other than a list upload only ever prepends cache
bindings. -/
theorem stepB_cache_extend (s : StateB) (e : EventB)
    (hne : ∀ entries c, e ≠ EventB.uploadList entries c) :
    ∃ l, (stepB s e).cache = l ++ s.cache := by
  cases e with
  | tick dt => exact ⟨[], rfl⟩
  | runEffect => exact ⟨[], (runEffectB_cache s).trans rfl⟩
  | wake k => exact ⟨[], (wakeB_cache s k).trans rfl⟩
  | completeFetch k res => exact completeFetchB_cache_extend s k res
  | userChoice c => exact ⟨[], (userChoiceB_cache s c).trans rfl⟩
  | fireCooldown k => exact ⟨[], (fireCooldownB_cache s k).trans rfl⟩
  | uploadList entries c => exact absurd rfl (hne entries c)

/-- Lookups that succeed keep succeeding after bindings are prepended. -/
theorem recLookup_append_isSome {β : Type} (l m : List (String × β))
    (k : String) (h : (recLookup k m).isSome = true) :
    (recLookup k (l ++ m)).isSome = true := by
  induction l with
  | nil => exact h
  | cons p rest ih =>
    rcases p with ⟨k', v⟩
    simp only [List.cons_append, recLookup]
    by_cases hk : k' = k
    · rw [if_pos hk]; rfl
    · rw [if_neg hk]; exact ih

/-- C3 (amended): within one session (a schedule containing no list
upload, which starts a new session) no cache entry is ever removed or
evicted: once `get(id)` returns a value, every later `get(id)` still
returns *a* value.  The stored value is however not stable — a
concurrent duplicate resolve of the same identifier overwrites the
populated entry with its own response (see `cache_overwrite_cex`):
every write is an unconditional object assignment, not an append-only
put. -/
theorem cache_never_evicted :
    ∀ (events : List EventB) (s : StateB) (k : String),
      (∀ entries c, EventB.uploadList entries c ∉ events) →
      (recLookup k s.cache).isSome = true →
      (recLookup k (runB events s).cache).isSome = true := by
  intro events
  induction events with
  | nil => intro s k _ h; exact h
  | cons e rest ih =>
    intro s k hup h
    have hne : ∀ entries c, e ≠ EventB.uploadList entries c := by
      intro entries c hc
      exact hup entries c (hc ▸ List.mem_cons_self e rest)
    rcases stepB_cache_extend s e hne with ⟨l, hl⟩
    have h' : (recLookup k (stepB s e).cache).isSome = true := by
      rw [hl]; exact recLookup_append_isSome l s.cache k h
    exact ih (stepB s e) k
      (fun en c hmem => hup en c (List.mem_cons_of_mem e hmem)) h'

/-- Witness for the amended C3 on a concrete session schedule. -/
theorem cache_never_evicted_witness :
    (recLookup "1"
      (runB [EventB.tick 5, EventB.runEffect, EventB.userChoice Decision.liked]
        ⟨0, [mkEntry "1"], 0, none, [], [], false, [("1", mkAnime 1 "A")],
          [], []⟩).cache).isSome = true := by
  apply cache_never_evicted
    [EventB.tick 5, EventB.runEffect, EventB.userChoice Decision.liked]
    ⟨0, [mkEntry "1"], 0, none, [], [], false, [("1", mkAnime 1 "A")], [], []⟩
    "1"
  · intro entries c h
    simp at h
  · decide

/-- The call a single warm-window slot contributes, described from the
spec side against a fixed cache: the entry must exist, must not be
cached, and must have a numeric identifier. -/
def slotCall (list : List AnimeXml) (cache : CacheMap) (i : ℕ) : Option Int :=
  (list.get? i).bind (fun e =>
    if (recLookup e.id cache).isSome then none else parseInt10 e.id)

/-- Spec-side description of one warm pass at `cursor`: the calls for
window positions `cursor+1 .. cursor+3`, judged against the cache as it
is when the pass starts. -/
def warmWindowSpec (list : List AnimeXml) (cursor : ℕ) (cache : CacheMap) :
    List Int :=
  [cursor + 1, cursor + 2, cursor + 3].filterMap (slotCall list cache)

/-- `filterMap` over a cons, phrased with `Option.toList`. -/
theorem filterMap_cons_toList {α β : Type} (f : α → Option β) (x : α)
    (xs : List α) :
    List.filterMap f (x :: xs) = (f x).toList ++ List.filterMap f xs := by
  cases h : f x <;> simp [List.filterMap_cons, h]

/-- One loop iteration appends exactly the slot's contribution (judged
against the accumulator's cache) to the issued calls. -/
theorem prefetchStep_calls (list : List AnimeXml)
    (oracle : ℕ → Option JikanAnime) (acc : PrefetchResult) (i : ℕ) :
    (prefetchStep list oracle acc i).calls =
      acc.calls ++ (slotCall list acc.cache i).toList := by
  unfold prefetchStep slotCall
  cases hget : list.get? i with
  | none => simp
  | some e =>
    dsimp only [Option.bind]
    by_cases hc : (recLookup e.id acc.cache).isSome
    · simp [hc]
    · simp only [Bool.not_eq_true] at hc
      cases hp : parseInt10 e.id with
      | none => simp [hc, hp]
      | some n => cases ho : oracle i <;> simp [hc, hp, ho]

/-- One loop iteration can only write the cache under the identifier of
its own slot entry; lookups of every other key are unchanged. -/
theorem prefetchStep_cache_other (list : List AnimeXml)
    (oracle : ℕ → Option JikanAnime) (acc : PrefetchResult) (i : ℕ)
    (k : String) (hk : ∀ e, list.get? i = some e → e.id ≠ k) :
    recLookup k (prefetchStep list oracle acc i).cache =
      recLookup k acc.cache := by
  unfold prefetchStep
  cases hget : list.get? i with
  | none => rfl
  | some e =>
    dsimp only
    by_cases hc : (recLookup e.id acc.cache).isSome
    · simp [hc]
    · simp only [Bool.not_eq_true] at hc
      cases hp : parseInt10 e.id with
      | none => simp [hc, hp]
      | some n =>
        cases ho : oracle i with
        | none => simp [hc, hp, ho]
        | some v =>
          simp only [hc, hp, ho, Bool.false_eq_true, if_false]
          show recLookup k (recordSet acc.cache e.id v) = recLookup k acc.cache
          unfold recordSet
          simp only [recLookup]
          rw [if_neg (hk e hget)]

/-- A slot's contribution only depends on the cache through the lookup
of its own entry's identifier. -/
theorem slotCall_congr (list : List AnimeXml) (cache cache' : CacheMap)
    (i : ℕ)
    (h : ∀ e, list.get? i = some e →
      recLookup e.id cache' = recLookup e.id cache) :
    slotCall list cache' i = slotCall list cache i := by
  unfold slotCall
  cases hget : list.get? i with
  | none => rfl
  | some e =>
    dsimp only [Option.bind]
    rw [h e hget]

/-- C4 counterexample: with the list `[{id:"5"}, {id:"abc"}]`, cursor 0
and an empty cache, the entry at window position 1 exists and its
identifier `"abc"` is neither cached nor in flight, so the claim
demands a resolve request for it; but the warm pass issues *no* calls
at all, because a non-numeric identifier is skipped. -/
theorem warm_window_cex :
    (prefetchNext [mkEntry "5", mkEntry "abc"] 0 [] (fun _ => none)).calls =
      [] ∧
    ([mkEntry "5", mkEntry "abc"] : List AnimeXml).get? 1 =
      some (mkEntry "abc") ∧
    recLookup "abc" ([] : CacheMap) = none := by
  decide

/-- C4 (amended): when the window's (existing) entries carry pairwise
distinct identifiers, one warm pass issues resolve requests for
*exactly* the entries at positions `cursor+1 .. cursor+3` that exist,
whose identifiers parse as numeric, and whose identifiers are not
already cached when the pass starts — in window order.  (In-flight
status is not consulted: the code has no in-flight set, so an
identifier whose resolution is pending is fetched again; and when the
same identifier occupies two window slots, the second slot is judged
against the cache as updated by the first.)  Positions beyond the end
of the list, cached identifiers, and non-numeric identifiers contribute
nothing. -/
theorem prefetchNext_window_exact (list : List AnimeXml) (cursor : ℕ)
    (cache : CacheMap) (oracle : ℕ → Option JikanAnime)
    (h12 : ∀ e1 e2, list.get? (cursor + 1) = some e1 →
      list.get? (cursor + 2) = some e2 → e1.id ≠ e2.id)
    (h13 : ∀ e1 e3, list.get? (cursor + 1) = some e1 →
      list.get? (cursor + 3) = some e3 → e1.id ≠ e3.id)
    (h23 : ∀ e2 e3, list.get? (cursor + 2) = some e2 →
      list.get? (cursor + 3) = some e3 → e2.id ≠ e3.id) :
    (prefetchNext list cursor cache oracle).calls =
      warmWindowSpec list cursor cache := by
  have hrun : prefetchNext list cursor cache oracle =
      prefetchStep list oracle
        (prefetchStep list oracle
          (prefetchStep list oracle ⟨cache, [], 0⟩ (cursor + 1))
          (cursor + 2))
        (cursor + 3) := rfl
  rw [hrun]
  have ha1 := prefetchStep_calls list oracle ⟨cache, [], 0⟩ (cursor + 1)
  have ha2 := prefetchStep_calls list oracle
    (prefetchStep list oracle ⟨cache, [], 0⟩ (cursor + 1)) (cursor + 2)
  have ha3 := prefetchStep_calls list oracle
    (prefetchStep list oracle
      (prefetchStep list oracle ⟨cache, [], 0⟩ (cursor + 1)) (cursor + 2))
    (cursor + 3)
  have hcache1 : ∀ e2, list.get? (cursor + 2) = some e2 →
      recLookup e2.id
        (prefetchStep list oracle ⟨cache, [], 0⟩ (cursor + 1)).cache =
      recLookup e2.id cache := by
    intro e2 h2
    exact prefetchStep_cache_other list oracle ⟨cache, [], 0⟩ (cursor + 1)
      e2.id (fun e1 h1 => h12 e1 e2 h1 h2)
  have hcache31 : ∀ e3, list.get? (cursor + 3) = some e3 →
      recLookup e3.id
        (prefetchStep list oracle ⟨cache, [], 0⟩ (cursor + 1)).cache =
      recLookup e3.id cache := by
    intro e3 h3
    exact prefetchStep_cache_other list oracle ⟨cache, [], 0⟩ (cursor + 1)
      e3.id (fun e1 h1 => h13 e1 e3 h1 h3)
  have hcache32 : ∀ e3, list.get? (cursor + 3) = some e3 →
      recLookup e3.id
        (prefetchStep list oracle
          (prefetchStep list oracle ⟨cache, [], 0⟩ (cursor + 1))
          (cursor + 2)).cache =
      recLookup e3.id cache := by
    intro e3 h3
    have hstep := prefetchStep_cache_other list oracle
      (prefetchStep list oracle ⟨cache, [], 0⟩ (cursor + 1)) (cursor + 2)
      e3.id (fun e2 h2 => h23 e2 e3 h2 h3)
    exact hstep.trans (hcache31 e3 h3)
  have hslot2 : slotCall list
      (prefetchStep list oracle ⟨cache, [], 0⟩ (cursor + 1)).cache
      (cursor + 2) = slotCall list cache (cursor + 2) :=
    slotCall_congr list cache _ (cursor + 2) hcache1
  have hslot3 : slotCall list
      (prefetchStep list oracle
        (prefetchStep list oracle ⟨cache, [], 0⟩ (cursor + 1))
        (cursor + 2)).cache
      (cursor + 3) = slotCall list cache (cursor + 3) :=
    slotCall_congr list cache _ (cursor + 3) hcache32
  rw [ha3, ha2, ha1, hslot2, hslot3]
  unfold warmWindowSpec
  rw [filterMap_cons_toList, filterMap_cons_toList, filterMap_cons_toList]
  simp [List.append_assoc]

/-- Witness for the amended C4 on a concrete window: position 1 is
fetchable, position 2 is already cached, position 3 is fetchable. -/
theorem prefetchNext_window_exact_witness :
    (prefetchNext [mkEntry "0", mkEntry "1", mkEntry "2", mkEntry "3"] 0
        [("2", mkAnime 2 "C")] (fun _ => none)).calls =
      warmWindowSpec [mkEntry "0", mkEntry "1", mkEntry "2", mkEntry "3"] 0
        [("2", mkAnime 2 "C")] ∧
    warmWindowSpec [mkEntry "0", mkEntry "1", mkEntry "2", mkEntry "3"] 0
        [("2", mkAnime 2 "C")] = [1, 3] := by
  constructor
  · apply prefetchNext_window_exact
    · intro e1 e2 h1 h2
      simp only [List.get?] at h1 h2
      injection h1 with h1
      injection h2 with h2
      subst h1; subst h2
      decide
    · intro e1 e3 h1 h3
      simp only [List.get?] at h1 h3
      injection h1 with h1
      injection h3 with h3
      subst h1; subst h3
      decide
    · intro e2 e3 h2 h3
      simp only [List.get?] at h2 h3
      injection h2 with h2
      injection h3 with h3
      subst h2; subst h3
      decide
  · decide

/-- Pairwise spacing relation on logged calls: two calls issued by the
same prefetch task (same `some`-origin) start at least 900 ms apart. -/
def SpacedRel (c c' : CallRec) : Prop :=
  ∀ k, c.origin = some k → c'.origin = some k → c.start + 900 ≤ c'.start

/-- Run invariant of the event loop tying the clock, the pending tasks,
and the call log together: call starts never exceed the clock, every
prefetch-tagged call names an existing task slot, a sleeping prefetch
task will wake at least 900 ms after each of its own logged call
starts, and calls of one prefetch task are pairwise ≥ 900 ms apart in
log order. -/
structure InvB (time : ℕ) (tasks : List (Option TaskB))
    (log : List CallRec) : Prop where
  timeOK : ∀ cr ∈ log, cr.start ≤ time
  originOK : ∀ cr ∈ log, ∀ k, cr.origin = some k → k < tasks.length
  sleepOK : ∀ (k : ℕ) (list : List AnimeXml) (i stop : ℕ) (idStr : String)
    (n : Int) (wakeAt : ℕ),
    tasks.get? k = some (some (TaskB.prefetchTask list i stop
      (PrefetchPhase.sleeping idStr n wakeAt))) →
    ∀ cr ∈ log, cr.origin = some k → cr.start + 900 ≤ wakeAt
  spacedOK : List.Pairwise SpacedRel log

/-- The invariant survives clock advance. -/
theorem invB_tick {t tasks log} (h : InvB t tasks log) (t' : ℕ)
    (ht : t ≤ t') : InvB t' tasks log :=
  ⟨fun cr hm => le_trans (h.timeOK cr hm) ht, h.originOK, h.sleepOK,
    h.spacedOK⟩

/-- The invariant survives appending a fresh task of any kind. -/
theorem invB_append_task {t tasks log} (h : InvB t tasks log)
    (tk : Option TaskB) : InvB t (tasks ++ [tk]) log := by
  refine ⟨h.timeOK, ?_, ?_, h.spacedOK⟩
  · intro cr hm k hk
    calc k < tasks.length := h.originOK cr hm k hk
      _ ≤ (tasks ++ [tk]).length := by simp
  · intro k list i stop idStr n wakeAt hget cr hm ho
    have hk : k < tasks.length := h.originOK cr hm k ho
    rw [List.get?_append hk] at hget
    exact h.sleepOK k list i stop idStr n wakeAt hget cr hm ho

/-- The invariant survives logging a foreground call at the current
time. -/
theorem invB_append_fg_call {t tasks log} (h : InvB t tasks log)
    (n : Int) : InvB t tasks (log ++ [⟨n, none, t⟩]) := by
  refine ⟨?_, ?_, ?_, ?_⟩
  · intro cr hm
    rcases List.mem_append.mp hm with hm | hm
    · exact h.timeOK cr hm
    · rw [List.mem_singleton.mp hm]
  · intro cr hm k hk
    rcases List.mem_append.mp hm with hm | hm
    · exact h.originOK cr hm k hk
    · rw [List.mem_singleton.mp hm] at hk
      exact absurd hk (by simp)
  · intro k list i stop idStr n' wakeAt hget cr hm ho
    rcases List.mem_append.mp hm with hm | hm
    · exact h.sleepOK k list i stop idStr n' wakeAt hget cr hm ho
    · rw [List.mem_singleton.mp hm] at ho
      exact absurd ho (by simp)
  · refine List.pairwise_append.mpr ⟨h.spacedOK, List.pairwise_singleton _ _,
      ?_⟩
    intro c _ c' hc' k _ ho'
    rw [List.mem_singleton.mp hc'] at ho'
    exact absurd ho' (by simp)

/-- The invariant survives retiring a task slot. -/
theorem invB_set_none {t tasks log} (h : InvB t tasks log) (k : ℕ) :
    InvB t (tasks.set k none) log := by
  refine ⟨h.timeOK, ?_, ?_, h.spacedOK⟩
  · intro cr hm k' hk'
    rw [List.length_set]
    exact h.originOK cr hm k' hk'
  · intro k' list i stop idStr n wakeAt hget cr hm ho
    by_cases hkk : k = k'
    · subst hkk
      rw [List.get?_set_eq] at hget
      cases hg : tasks.get? k with
      | none => rw [hg] at hget; cases hget
      | some x => rw [hg] at hget; cases hget
    · rw [List.get?_set_ne _ _ hkk] at hget
      exact h.sleepOK k' list i stop idStr n wakeAt hget cr hm ho

/-- The invariant survives re-arming a task slot as a prefetch sleep
that wakes 900 ms from now. -/
theorem invB_resleep {t tasks log} (h : InvB t tasks log) (k : ℕ)
    (list : List AnimeXml) (i stop : ℕ) (idStr : String) (n : Int) :
    InvB t
      (tasks.set k (some (TaskB.prefetchTask list i stop
        (PrefetchPhase.sleeping idStr n (t + 900))))) log := by
  refine ⟨h.timeOK, ?_, ?_, h.spacedOK⟩
  · intro cr hm k' hk'
    rw [List.length_set]
    exact h.originOK cr hm k' hk'
  · intro k' list' i' stop' idStr' n' wakeAt hget cr hm ho
    by_cases hkk : k = k'
    · subst hkk
      rw [List.get?_set_eq] at hget
      cases hg : tasks.get? k with
      | none => rw [hg] at hget; cases hget
      | some x =>
        rw [hg] at hget
        injection hget with hget
        injection hget with hget
        injection hget with h1 h2 h3 h4
        injection h4 with h5 h6 h7
        rw [← h7]
        have := h.timeOK cr hm
        omega
    · rw [List.get?_set_ne _ _ hkk] at hget
      exact h.sleepOK k' list' i' stop' idStr' n' wakeAt hget cr hm ho

/-- The invariant survives a prefetch wake-up: the sleeping slot turns
into an awaiting-fetch slot and its call is logged now, at or after the
slot's wake time. -/
theorem invB_wake {t tasks log} (h : InvB t tasks log) (k : ℕ)
    (list : List AnimeXml) (i stop : ℕ) (idStr : String) (n : Int)
    (wakeAt : ℕ)
    (hget : tasks.get? k = some (some (TaskB.prefetchTask list i stop
      (PrefetchPhase.sleeping idStr n wakeAt))))
    (hw : wakeAt ≤ t) :
    InvB t
      (tasks.set k (some (TaskB.prefetchTask list i stop
        (PrefetchPhase.awaitingFetch idStr n))))
      (log ++ [⟨n, some k, t⟩]) := by
  have hklen : k < tasks.length := by
    rcases List.get?_eq_some.mp hget with ⟨hk, _⟩
    exact hk
  refine ⟨?_, ?_, ?_, ?_⟩
  · intro cr hm
    rcases List.mem_append.mp hm with hm | hm
    · exact h.timeOK cr hm
    · rw [List.mem_singleton.mp hm]
  · intro cr hm k' hk'
    rw [List.length_set]
    rcases List.mem_append.mp hm with hm | hm
    · exact h.originOK cr hm k' hk'
    · rw [List.mem_singleton.mp hm] at hk'
      injection hk' with hk'
      rw [← hk']
      exact hklen
  · intro k' list' i' stop' idStr' n' wakeAt' hget' cr hm ho
    by_cases hkk : k = k'
    · subst hkk
      rw [List.get?_set_eq] at hget'
      cases hg : tasks.get? k with
      | none => rw [hg] at hget'; cases hget'
      | some x =>
        rw [hg] at hget'
        injection hget' with hget'
        injection hget' with hget'
        injection hget' with h1 h2 h3 h4
        cases h4
    · rw [List.get?_set_ne _ _ hkk] at hget'
      rcases List.mem_append.mp hm with hm | hm
      · exact h.sleepOK k' list' i' stop' idStr' n' wakeAt' hget' cr hm ho
      · rw [List.mem_singleton.mp hm] at ho
        injection ho with ho
        exact absurd ho hkk
  · refine List.pairwise_append.mpr ⟨h.spacedOK, List.pairwise_singleton _ _,
      ?_⟩
    intro c hc c' hc' k' hok hok'
    have hc'' := List.mem_singleton.mp hc'
    subst hc''
    injection hok' with hok'
    subst hok'
    exact le_trans (h.sleepOK k list i stop idStr n wakeAt hget c hc hok) hw

/-- The effect segment preserves the run invariant. -/
theorem runEffectB_inv (s : StateB) (h : InvB s.time s.tasks s.callLog) :
    InvB (runEffectB s).time (runEffectB s).tasks (runEffectB s).callLog := by
  unfold runEffectB
  cases ha : s.animeList.get? s.currentIndex with
  | none => exact h
  | some a =>
    cases hl : recLookup a.id s.cache with
    | some v =>
      simp only [hl]
      cases hpf : pfFind s.cache s.animeList (s.currentIndex + 1) 3 with
      | none => exact h
      | some t =>
        rcases t with ⟨i, idStr, n⟩
        exact invB_append_task h _
    | none =>
      simp only [hl]
      cases hp : parseInt10 a.id with
      | none =>
        simp only [hp]
        cases hpf : pfFind s.cache s.animeList (s.currentIndex + 1) 3 with
        | none => exact h
        | some t =>
          rcases t with ⟨i, idStr, n⟩
          exact invB_append_task h _
      | some n =>
        simp only [hp]
        have h₁ := invB_append_task (invB_append_fg_call h n)
          (some (TaskB.awaitingLoad a.id n))
        cases hpf : pfFind s.cache s.animeList (s.currentIndex + 1) 3 with
        | none => exact h₁
        | some t =>
          rcases t with ⟨i, idStr, n'⟩
          exact invB_append_task h₁ _

/-- The wake segment preserves the run invariant. -/
theorem wakeB_inv (s : StateB) (k : ℕ)
    (h : InvB s.time s.tasks s.callLog) :
    InvB (wakeB s k).time (wakeB s k).tasks (wakeB s k).callLog := by
  unfold wakeB
  cases hg : s.tasks.get? k with
  | none => exact h
  | some t =>
    cases t with
    | none => exact h
    | some tk =>
      cases tk with
      | awaitingLoad idStr n => exact h
      | cooldownTimer fireAt => exact h
      | prefetchTask list i stop ph =>
        cases ph with
        | awaitingFetch idStr n => exact h
        | sleeping idStr n wakeAt =>
          dsimp only
          by_cases hw : wakeAt ≤ s.time
          · rw [if_pos hw]
            exact invB_wake h k list i stop idStr n wakeAt hg hw
          · rw [if_neg hw]
            exact h

/-- The completion segment preserves the run invariant. -/
theorem completeFetchB_inv (s : StateB) (k : ℕ) (res : Option JikanAnime)
    (h : InvB s.time s.tasks s.callLog) :
    InvB (completeFetchB s k res).time (completeFetchB s k res).tasks
      (completeFetchB s k res).callLog := by
  unfold completeFetchB
  cases hg : s.tasks.get? k with
  | none => exact h
  | some t =>
    cases t with
    | none => exact h
    | some tk =>
      cases tk with
      | cooldownTimer fireAt => exact h
      | awaitingLoad idStr n =>
        cases res with
        | some v => exact invB_set_none h k
        | none => exact invB_set_none h k
      | prefetchTask list i stop ph =>
        cases ph with
        | sleeping idStr n wakeAt => exact h
        | awaitingFetch idStr n =>
          cases res with
          | some v =>
            dsimp only
            cases hpf : pfFind (recordSet s.cache idStr v) list (i + 1)
                (stop - (i + 1)) with
            | none => exact invB_set_none h k
            | some t' =>
              rcases t' with ⟨i', idStr', n'⟩
              exact invB_resleep h k list i' stop idStr' n'
          | none =>
            dsimp only
            cases hpf : pfFind s.cache list (i + 1) (stop - (i + 1)) with
            | none => exact invB_set_none h k
            | some t' =>
              rcases t' with ⟨i', idStr', n'⟩
              exact invB_resleep h k list i' stop idStr' n'

/-- The click segment preserves the run invariant. -/
theorem userChoiceB_inv (s : StateB) (c : Decision)
    (h : InvB s.time s.tasks s.callLog) :
    InvB (userChoiceB s c).time (userChoiceB s c).tasks
      (userChoiceB s c).callLog := by
  unfold userChoiceB
  by_cases hcd : s.isCooldown
  · rw [if_pos hcd]
    exact h
  · rw [if_neg hcd]
    have h₁ := invB_append_task h (some (TaskB.cooldownTimer (s.time + 1000)))
    cases ha : s.animeList.get? s.currentIndex with
    | none => cases s.jikanData <;> exact h₁
    | some a =>
      cases s.jikanData with
      | none => exact h₁
      | some jd => cases c <;> exact h₁

/-- The cooldown-expiry segment preserves the run invariant. -/
theorem fireCooldownB_inv (s : StateB) (k : ℕ)
    (h : InvB s.time s.tasks s.callLog) :
    InvB (fireCooldownB s k).time (fireCooldownB s k).tasks
      (fireCooldownB s k).callLog := by
  unfold fireCooldownB
  cases hg : s.tasks.get? k with
  | none => exact h
  | some t =>
    cases t with
    | none => exact h
    | some tk =>
      cases tk with
      | awaitingLoad idStr n => exact h
      | prefetchTask list i stop ph => exact h
      | cooldownTimer fireAt =>
        dsimp only
        by_cases hw : fireAt ≤ s.time
        · rw [if_pos hw]
          exact invB_set_none h k
        · rw [if_neg hw]
          exact h

/-- The upload segment preserves the run invariant (tasks and the call
log survive an upload untouched). -/
theorem uploadListB_inv (s : StateB) (entries : List AnimeXml) (c : ℕ → ℕ)
    (h : InvB s.time s.tasks s.callLog) :
    InvB (uploadListB s entries c).time (uploadListB s entries c).tasks
      (uploadListB s entries c).callLog := by
  unfold uploadListB
  by_cases he : entries = []
  · rw [if_pos he]
    exact h
  · rw [if_neg he]
    exact h

/-- Every event-loop step preserves the run invariant. -/
theorem stepB_inv (s : StateB) (e : EventB)
    (h : InvB s.time s.tasks s.callLog) :
    InvB (stepB s e).time (stepB s e).tasks (stepB s e).callLog := by
  cases e with
  | tick dt => exact invB_tick h _ (Nat.le_add_right _ _)
  | runEffect => exact runEffectB_inv s h
  | wake k => exact wakeB_inv s k h
  | completeFetch k res => exact completeFetchB_inv s k res h
  | userChoice c => exact userChoiceB_inv s c h
  | fireCooldown k => exact fireCooldownB_inv s k h
  | uploadList entries c => exact uploadListB_inv s entries c h

/-- Whole runs preserve the run invariant. -/
theorem runB_inv (events : List EventB) (s : StateB)
    (h : InvB s.time s.tasks s.callLog) :
    InvB (runB events s).time (runB events s).tasks
      (runB events s).callLog := by
  induction events generalizing s with
  | nil => exact h
  | cons e rest ih => exact ih (stepB s e) (stepB_inv s e h)

/-- C2 (amended): only the prefetch loop is rate-limited, and only
per pass: any two calls issued by the *same* prefetch pass start at
least 900 ms apart (each is preceded by that pass's 900 ms sleep).
There is no gate shared with the foreground path, so a foreground call
can start arbitrarily close to any other call
(see `rate_gap_cex`). -/
theorem prefetch_calls_spaced (list : List AnimeXml) (events : List EventB)
    (i j : ℕ) (ci cj : CallRec) (k : ℕ) (hij : i < j)
    (hi : (runB events (initB list)).callLog.get? i = some ci)
    (hj : (runB events (initB list)).callLog.get? j = some cj)
    (hoi : ci.origin = some k) (hoj : cj.origin = some k) :
    ci.start + 900 ≤ cj.start := by
  have hinit : InvB (initB list).time (initB list).tasks (initB list).callLog := by
    refine ⟨?_, ?_, ?_, List.Pairwise.nil⟩
    · intro cr hm
      cases hm
    · intro cr hm
      cases hm
    · intro k' l' i' st' id' n' w' hget
      cases hget
  have hinv := runB_inv events (initB list) hinit
  rcases List.get?_eq_some.mp hi with ⟨hilen, hig⟩
  rcases List.get?_eq_some.mp hj with ⟨hjlen, hjg⟩
  have hrel := List.pairwise_iff_get.mp hinv.spacedOK ⟨i, hilen⟩ ⟨j, hjlen⟩
    (Fin.mk_lt_mk.mpr hij)
  rw [hig, hjg] at hrel
  exact hrel k hoi hoj

/-- Session list used by the concrete spacing runs. -/
def gapList : List AnimeXml :=
  [mkEntry "1", mkEntry "2", mkEntry "3", mkEntry "4", mkEntry "5"]

/-- Schedule on which one prefetch pass issues two calls (the first
fails, the loop sleeps again and calls for the next slot). -/
def spacedEvents : List EventB :=
  [EventB.runEffect, EventB.tick 900, EventB.wake 1,
   EventB.completeFetch 1 none, EventB.tick 900, EventB.wake 1]

/-- Witness for the amended C2: the two calls of prefetch task 1 start
at 900 and 1800 — at least 900 ms apart. -/
theorem prefetch_calls_spaced_witness :
    (runB spacedEvents (initB gapList)).callLog.get? 1 =
      some ⟨2, some 1, 900⟩ ∧
    (runB spacedEvents (initB gapList)).callLog.get? 2 =
      some ⟨3, some 1, 1800⟩ ∧
    (⟨2, some 1, 900⟩ : CallRec).start + 900 ≤
      (⟨3, some 1, 1800⟩ : CallRec).start := by
  refine ⟨by decide, by decide, ?_⟩
  exact prefetch_calls_spaced gapList spacedEvents 1 2
    ⟨2, some 1, 900⟩ ⟨3, some 1, 1800⟩ 1 (by decide) (by decide) (by decide)
    rfl rfl

/-- Schedule on which a foreground call starts 100 ms after the
previous call: entry `"1"` resolves quickly (100 ms), the user decides
at once, and the effect for entry `"2"` issues its foreground call
immediately — no gate delays it. -/
def gapEvents : List EventB :=
  [EventB.runEffect, EventB.tick 100,
   EventB.completeFetch 0 (some (mkAnime 1 "A")),
   EventB.userChoice Decision.liked, EventB.runEffect]

/-- C2 counterexample: two consecutive outbound calls start at t = 0
(foreground, entry `"1"`) and t = 100 (foreground, entry `"2"`) — an
interval of 100 ms < 900 ms.  The foreground resolve path shares no
rate-limited gate with the prefetch path, so the claimed ≥ 900 ms gap
between consecutive call starts fails. -/
theorem rate_gap_cex :
    (runB gapEvents (initB gapList)).callLog =
      [⟨1, none, 0⟩, ⟨2, none, 100⟩] ∧
    (100 : ℕ) - 0 < 900 := by
  decide
